import Mathlib

/-!
Verification of the python-cmethods bias-correction core.

The development shallowly embeds the numerical core of the library over exact
rationals: every floating-point series becomes a `List ℚ`, every numpy
primitive the code relies on (`np.interp`, `np.arange`, `np.histogram`,
prefix sums) is translated to an executable Lean function with the same
edge-case behaviour (left/right fill values, the closed last histogram bin,
division-by-zero guards).  NaN payloads are not modelled: all series are
NaN-free, so `np.nanmax`/`np.nanmin`/`np.nanmean` coincide with the plain
maximum/minimum/mean, and `nan_or_equal` collapses to equality.

Python-level dynamic typing is modelled separately by a small `PyVal`
inductive for the claims that are about `isinstance` checks.
-/

namespace CMethods

/-- `np.nanmax` over a NaN-free series.  numpy raises on an empty input; the
model returns 0 there, and every theorem that relies on the maximum carries a
nonemptiness hypothesis. -/
def nanmax : List ℚ → ℚ
  | [] => 0
  | a :: t => t.foldl max a

/-- `np.nanmin` over a NaN-free series (empty input modelled as 0, as for
`nanmax`). -/
def nanmin : List ℚ → ℚ
  | [] => 0
  | a :: t => t.foldl min a

/-- `np.nanmean` over a NaN-free series; the empty case is `0/0 = 0` in `ℚ`
(numpy would produce NaN, which no claim exercises). -/
def nanmean (x : List ℚ) : ℚ := x.sum / x.length

/-- Scalar branch of `ensure_devidable` (src/cmethods/utils.py lines 98-128,
imported by the newer modules under the spelling `ensure_dividable`):
`numerator / denominator`, computed under `np.errstate(ignore)`, becomes
`±inf` when the denominator alone is zero (replaced by
`numerator * max_scaling_factor`) and NaN when both are zero (replaced by 0).
The array branch of the Python function applies exactly this map elementwise
through its `isinf`/`isnan` masks, which is how the embedding uses it below. -/
def ensure_devidable (numerator denominator max_scaling_factor : ℚ) : ℚ :=
  if denominator = 0 then
    if numerator = 0 then 0
    else numerator * max_scaling_factor
  else numerator / denominator

/-- `get_adjusted_scaling_factor` (src/cmethods/utils.py lines 208-232). -/
def get_adjusted_scaling_factor (factor max_scaling_factor : ℚ) : ℚ :=
  if factor > 0 ∧ factor > |max_scaling_factor| then |max_scaling_factor|
  else if factor < 0 ∧ factor < -|max_scaling_factor| then -|max_scaling_factor|
  else factor

/-- `np.arange(start, stop, step)` over exact rationals: the
`⌈(stop - start) / step⌉` evenly spaced points starting at `start`.  A zero
step (which makes numpy raise) is modelled as the empty list and is avoided by
every caller below. -/
def np_arange (start stop step : ℚ) : List ℚ :=
  if step = 0 then []
  else (List.range (⌈(stop - start) / step⌉).toNat).map (fun i => start + i * step)

/-- Inner lookup loop of `np.interp`, called with `xp.head ≤ x`: walk to the
largest index `j` with `xp[j] ≤ x`; on an exact hit return `fp[j]`, at the end
of `xp` return the last `fp`, otherwise interpolate linearly inside the
segment, exactly as the compiled numpy loop does. -/
def interpCore (x : ℚ) : List ℚ → List ℚ → ℚ
  | [_], fe :: _ => fe
  | xe1 :: xe2 :: xs, fe1 :: fe2 :: fs =>
    if xe2 ≤ x then interpCore x (xe2 :: xs) (fe2 :: fs)
    else if x = xe1 then fe1
    else fe1 + (x - xe1) * (fe2 - fe1) / (xe2 - xe1)
  | _, _ => 0

/-- `np.interp(x, xp, fp, left, right)` for a single probe: probes below
`xp[0]` take `left` (default `fp[0]`), probes above `xp[-1]` take `right`
(default `fp[-1]`), otherwise piecewise-linear interpolation via
`interpCore`.  An empty `xp` makes numpy raise and is modelled as 0. -/
def np_interp (x : ℚ) (xp fp : List ℚ) (left right : Option ℚ) : ℚ :=
  match xp, fp with
  | xe :: xtl, fe :: ftl =>
    if x < xe then left.getD fe
    else if x > (xe :: xtl).getLastD 0 then right.getD ((fe :: ftl).getLastD 0)
    else interpCore x (xe :: xtl) (fe :: ftl)
  | _, _ => 0

/-- `np.histogram(x, xbins)` bin counts: every bin is half-open except the
last, which is closed on the right (the documented numpy behaviour, and the
behaviour the `get_pdf` docstring example in src/cmethods/utils.py shows). -/
def histogram (x : List ℚ) : List ℚ → List ℕ
  | [] => []
  | [_] => []
  | [a, b] => [(x.filter (fun v => decide (a ≤ v ∧ v ≤ b))).length]
  | a :: b :: c :: rest =>
      (x.filter (fun v => decide (a ≤ v ∧ v < b))).length :: histogram x (b :: c :: rest)

/-- `get_pdf` (src/cmethods/utils.py lines 131-155). -/
def get_pdf (x xbins : List ℚ) : List ℕ := histogram x xbins

/-- `get_cdf` (src/cmethods/utils.py lines 158-183): prefix-sum the histogram
counts and prepend a leading 0, i.e. `np.insert(np.cumsum(pdf), 0, 0.0)`. -/
def get_cdf (x xbins : List ℚ) : List ℚ :=
  List.scanl (fun (acc : ℚ) (c : ℕ) => acc + (c : ℚ)) 0 (get_pdf x xbins)

/-- `get_inverse_of_cdf` (src/cmethods/utils.py lines 186-205):
`np.interp(insert_cdf, base_cdf, xbins)` elementwise. -/
def get_inverse_of_cdf (base_cdf insert_cdf xbins : List ℚ) : List ℚ :=
  insert_cdf.map (fun e => np_interp e base_cdf xbins none none)

/-- src/cmethods/static.py line 41. -/
def ADDITIVE : List String := ["+", "add"]

/-- src/cmethods/static.py line 42. -/
def MULTIPLICATIVE : List String := ["*", "mult"]

/-- src/cmethods/static.py line 43. -/
def MAX_SCALING_FACTOR : ℚ := 10

/-- src/cmethods/static.py lines 27-31. -/
def SCALING_METHODS : List String :=
  ["linear_scaling", "variance_scaling", "delta_method"]

/-- The method table `METHODS_FUNC` of src/cmethods/core.py lines 44-50. -/
def METHODS_FUNC : List String :=
  ["linear_scaling", "variance_scaling", "delta_method",
   "quantile_mapping", "quantile_delta_mapping"]

/-- The exception families the core raises (`TypeError`, `ValueError`,
`NotImplementedError`, `UnknownMethodError`). -/
inductive CMError
  | typeError (msg : String)
  | valueError (msg : String)
  | notImplementedError (msg : String)
  | unknownMethod (method : String)
deriving DecidableEq, Repr

/-- The `**kwargs` bag threaded through `adjust` and the correctors, holding
every key the core ever reads with `kwargs.get` (or as a keyword argument).
An absent key is `none`; `kwargs.get(key, default)` becomes `.getD default`.
Note the two distinct fields `max_scaling_factor` (the documented key) and
`max_scaling_scaling` (the key actually read by the multiplicative branch of
`quantile_delta_mapping`, src/cmethods/distribution.py line 267). -/
structure Kwargs where
  kind : String := "+"
  group : Option String := none
  n_quantiles : Option ℕ := none
  max_scaling_factor : Option ℚ := none
  max_scaling_scaling : Option ℚ := none
  global_min : Option ℚ := none
  global_max : Option ℚ := none
  val_min : Option ℚ := none
  val_max : Option ℚ := none
deriving DecidableEq, Repr

/-- The additive branch of `linear_scaling` (src/cmethods/scaling.py line 65),
shared with `variance_scaling`, which calls `linear_scaling(..., kind="+")`. -/
def linear_scaling_add (obs simh simp : List ℚ) : List ℚ :=
  simp.map (fun v => v + (nanmean obs - nanmean simh))

/-- `linear_scaling` (src/cmethods/scaling.py lines 46-82).
`check_adjust_called` only emits a warning and is not modelled. -/
def linear_scaling (obs simh simp : List ℚ) (kind : String) (kw : Kwargs) :
    Except CMError (List ℚ) :=
  if kind ∈ ADDITIVE then .ok (linear_scaling_add obs simh simp)
  else if kind ∈ MULTIPLICATIVE then
    let msf := kw.max_scaling_factor.getD MAX_SCALING_FACTOR
    let adj := get_adjusted_scaling_factor
      (ensure_devidable (nanmean obs) (nanmean simh) msf) msf
    .ok (simp.map (fun v => v * adj))
  else .error (.notImplementedError
    ("kind not available for linear_scaling. Use + or * instead."))

/-- `variance_scaling` (src/cmethods/scaling.py lines 88-130).  `np.std` is
irrational-valued, so the standard deviation is abstracted as an arbitrary
function `std`; every theorem below about `variance_scaling` holds for all
possible `std`, so nothing is lost by the abstraction.  Note line 104 of the
source passes `simp` in place of `simh` to `check_np_types`; this interface
detail is modelled by `variance_scaling_type_check` further down. -/
def variance_scaling (std : List ℚ → ℚ) (obs simh simp : List ℚ) (kind : String)
    (kw : Kwargs) : Except CMError (List ℚ) :=
  if kind ∈ ADDITIVE then
    let LS_simh := linear_scaling_add obs simh simh
    let LS_simp := linear_scaling_add obs simh simp
    let VS_1_simh := LS_simh.map (fun v => v - nanmean LS_simh)
    let VS_1_simp := LS_simp.map (fun v => v - nanmean LS_simp)
    let msf := kw.max_scaling_factor.getD MAX_SCALING_FACTOR
    let adj := get_adjusted_scaling_factor
      (ensure_devidable (std obs) (std VS_1_simh) msf) msf
    let VS_2_simp := VS_1_simp.map (fun v => v * adj)
    .ok (VS_2_simp.map (fun v => v + nanmean LS_simp))
  else .error (.notImplementedError
    ("kind not available for variance_scaling. Use + instead."))

/-- `delta_method` (src/cmethods/scaling.py lines 134-169): the result is
built from `obs`, not from `simp`. -/
def delta_method (obs simh simp : List ℚ) (kind : String) (kw : Kwargs) :
    Except CMError (List ℚ) :=
  if kind ∈ ADDITIVE then
    .ok (obs.map (fun v => v + (nanmean simp - nanmean simh)))
  else if kind ∈ MULTIPLICATIVE then
    let msf := kw.max_scaling_factor.getD MAX_SCALING_FACTOR
    let adj := get_adjusted_scaling_factor
      (ensure_devidable (nanmean simp) (nanmean simh) msf) msf
    .ok (obs.map (fun v => v * adj))
  else .error (.notImplementedError
    ("kind not available for delta_method. Use + or * instead."))

/-- `quantile_mapping` (src/cmethods/distribution.py lines 31-82).  With
NaN-free inputs `nan_or_equal(global_max, global_min)` is plain equality.
The degenerate-range guard fires before the kind dispatch, exactly as in the
source. -/
def quantile_mapping (obs simh simp : List ℚ) (n_quantiles : ℕ) (kind : String)
    (kw : Kwargs) : Except CMError (List ℚ) :=
  let global_max := max (nanmax obs) (nanmax simh)
  let global_min := min (nanmin obs) (nanmin simh)
  if global_max = global_min then .ok simp
  else
    let wide := |global_max - global_min| / n_quantiles
    let xbins := np_arange global_min (global_max + wide) wide
    let cdf_obs := get_cdf obs xbins
    let cdf_simh := get_cdf simh xbins
    if kind ∈ ADDITIVE then
      let epsilon := simp.map (fun v => np_interp v xbins cdf_simh none none)
      .ok (get_inverse_of_cdf cdf_obs epsilon xbins)
    else if kind ∈ MULTIPLICATIVE then
      let epsilon := simp.map (fun v =>
        np_interp v xbins cdf_simh (some (kw.val_min.getD 0)) kw.val_max)
      .ok (get_inverse_of_cdf cdf_obs epsilon xbins)
    else .error (.notImplementedError
      ("kind for quantile_mapping is not available. Use + or * instead."))

/-- `quantile_delta_mapping` (src/cmethods/distribution.py lines 199-274).
The additive branch takes `global_min`/`global_max` overrides from the kwargs
with data-derived defaults; the multiplicative branch defaults `global_min`
to 0, uses `wide = global_max / n_quantiles`, and guards the delta division
with `kwargs.get("max_scaling_scaling", MAX_SCALING_FACTOR)` (line 267). -/
def quantile_delta_mapping (obs simh simp : List ℚ) (n_quantiles : ℕ)
    (kind : String) (kw : Kwargs) : Except CMError (List ℚ) :=
  if kind ∈ ADDITIVE then
    let global_max := kw.global_max.getD (max (nanmax obs) (nanmax simh))
    let global_min := kw.global_min.getD (min (nanmin obs) (nanmin simh))
    if global_max = global_min then .ok simp
    else
      let wide := |global_max - global_min| / n_quantiles
      let xbins := np_arange global_min (global_max + wide) wide
      let cdf_obs := get_cdf obs xbins
      let cdf_simh := get_cdf simh xbins
      let cdf_simp := get_cdf simp xbins
      let epsilon := simp.map (fun v => np_interp v xbins cdf_simp none none)
      let QDM1 := get_inverse_of_cdf cdf_obs epsilon xbins
      let delta := List.zipWith (fun v w => v - w) simp
        (get_inverse_of_cdf cdf_simh epsilon xbins)
      .ok (List.zipWith (fun a b => a + b) QDM1 delta)
  else if kind ∈ MULTIPLICATIVE then
    let global_max := kw.global_max.getD (max (nanmax obs) (nanmax simh))
    let global_min := kw.global_min.getD 0
    if global_max = global_min then .ok simp
    else
      let wide := global_max / n_quantiles
      let xbins := np_arange global_min (global_max + wide) wide
      let cdf_obs := get_cdf obs xbins
      let cdf_simh := get_cdf simh xbins
      let cdf_simp := get_cdf simp xbins
      let epsilon := simp.map (fun v => np_interp v xbins cdf_simp none none)
      let QDM1 := get_inverse_of_cdf cdf_obs epsilon xbins
      let delta := List.zipWith
        (fun v w => ensure_devidable v w (kw.max_scaling_scaling.getD MAX_SCALING_FACTOR))
        simp (get_inverse_of_cdf cdf_simh epsilon xbins)
      .ok (List.zipWith (fun a b => a * b) QDM1 delta)
  else .error (.notImplementedError
    ("kind not available for quantile_delta_mapping. Use + or * instead."))

/-- The string-keyed dispatch of `__METHODS_FUNC__` (src/cmethods/core.py
lines 44-50): look the method name up and call it with the kwargs bag.  The
missing-`n_quantiles` case models the `TypeError` Python raises for a missing
required argument. -/
def dispatch_method (std : List ℚ → ℚ) (method : String) (obs simh simp : List ℚ)
    (kw : Kwargs) : Except CMError (List ℚ) :=
  if method = "linear_scaling" then linear_scaling obs simh simp kw.kind kw
  else if method = "variance_scaling" then variance_scaling std obs simh simp kw.kind kw
  else if method = "delta_method" then delta_method obs simh simp kw.kind kw
  else if method = "quantile_mapping" then
    match kw.n_quantiles with
    | none => .error (.typeError ("quantile_mapping missing required argument n_quantiles"))
    | some n => quantile_mapping obs simh simp n kw.kind kw
  else if method = "quantile_delta_mapping" then
    match kw.n_quantiles with
    | none => .error (.typeError ("quantile_delta_mapping missing required argument n_quantiles"))
    | some n => quantile_delta_mapping obs simh simp n kw.kind kw
  else .error (.unknownMethod method)

/-- `apply_ufunc` (src/cmethods/core.py lines 93-149) restricted to a single
grid cell: reject unknown methods, then run the selected 1-D corrector.  The
xarray broadcasting/transposition bookkeeping is the out-of-scope collaborator
and is not modelled. -/
def apply_ufunc (std : List ℚ → ℚ) (method : String) (obs simh simp : List ℚ)
    (kw : Kwargs) : Except CMError (List ℚ) :=
  if method ∉ METHODS_FUNC then .error (.unknownMethod method)
  else dispatch_method std method obs simh simp kw

/-- The calendar keys present in a label series, in ascending order (xarray
`groupby` iterates groups in sorted key order). -/
def groupKeys (labels : List ℕ) : List ℕ :=
  (List.range (labels.foldr max 0 + 1)).filter (fun k => k ∈ labels)

/-- The sub-series of `xs` whose calendar label is `k`. -/
def selectByKey (xs : List ℚ) (labels : List ℕ) (k : ℕ) : List ℚ :=
  (List.zip labels xs).filterMap (fun p => if p.1 = k then some p.2 else none)

/-- Scatter the per-group result `vs` back into `acc` at the positions whose
label is `k`, preserving the original time order. -/
def scatterByKey : List ℚ → List ℕ → ℕ → List ℚ → List ℚ
  | [], _, _, _ => []
  | a :: as, [], _, _ => a :: as
  | a :: as, l :: ls, k, vs =>
    if l = k then
      match vs with
      | [] => a :: scatterByKey as ls k []
      | v :: vrest => v :: scatterByKey as ls k vrest
    else a :: scatterByKey as ls k vs

/-- The grouped branch of `adjust` (src/cmethods/core.py lines 213-251):
zip the three per-key group iterations, correct each triple of sub-series,
and reassemble into a `simp`-shaped result.  The xarray `merge` reassembly is
modelled as index-ordered scatter, which is what it produces for aligned
calendar groupings. -/
def grouped_correction (std : List ℚ → ℚ) (method : String) (obs simh simp : List ℚ)
    (lobs lsimh lsimp : List ℕ) (kw : Kwargs) : Except CMError (List ℚ) :=
  let triples := List.zip (groupKeys lobs) (List.zip (groupKeys lsimh) (groupKeys lsimp))
  triples.foldlM
    (fun acc t =>
      (apply_ufunc std method (selectByKey obs lobs t.1)
          (selectByKey simh lsimh t.2.1) (selectByKey simp lsimp t.2.2) kw).map
        (fun r => scatterByKey acc lsimp t.2.2 r))
    (List.replicate simp.length 0)

/-- `adjust` (src/cmethods/core.py lines 152-251) over one grid cell:
reject `detrended_quantile_mapping` outright, run ungrouped when no group key
is supplied, reject a group key for distribution-based methods, otherwise run
the grouped correction.  `lobs`/`lsimh`/`lsimp` are the calendar labels the
(out-of-scope) labeled-array collaborator supplies for the grouped branch;
metadata attributes are not modelled. -/
def adjust (std : List ℚ → ℚ) (method : String) (obs simh simp : List ℚ)
    (lobs lsimh lsimp : List ℕ) (kw : Kwargs) : Except CMError (List ℚ) :=
  if method = "detrended_quantile_mapping" then
    .error (.valueError
      ("This function is not available for detrended quantile mapping."
        ++ " Please use cmethods.CMethods.detrended_quantile_mapping"))
  else if kw.group = none then apply_ufunc std method obs simh simp kw
  else if method ∉ SCALING_METHODS then
    .error (.valueError ("Cant use group for distribution based methods."))
  else grouped_correction std method obs simh simp lobs lsimh lsimp kw

/-- A value of the Python dynamic types relevant to the interface checks:
ints, floats, the `NPData_t` tuple `(list, np.ndarray, np.generic)` from
src/cmethods/types.py, xarray data, strings, `None`. -/
inductive PyVal
  | pyInt (z : ℤ)
  | pyFloat (q : ℚ)
  | pyList
  | pyNdarray
  | pyGeneric
  | pyDataArray
  | pyStr (s : String)
  | pyNone
deriving DecidableEq, Repr

/-- `isinstance(v, NPData_t)` with `NPData_t = (list, np.ndarray, np.generic)`
(src/cmethods/types.py). -/
def isNPData : PyVal → Bool
  | .pyList => true
  | .pyNdarray => true
  | .pyGeneric => true
  | _ => false

/-- `isinstance(v, int)`. -/
def isPyInt : PyVal → Bool
  | .pyInt _ => true
  | _ => false

/-- `check_np_types` (src/cmethods/utils.py lines 66-81): each of the three
arguments must be a list, `np.ndarray` or `np.generic`. -/
def check_np_types (obs simh simp : PyVal) : Except CMError Unit :=
  if ¬ isNPData obs then
    .error (.typeError ("obs must be type list, np.ndarray or np.generic"))
  else if ¬ isNPData simh then
    .error (.typeError ("simh must be type list, np.ndarray or np.generic"))
  else if ¬ isNPData simp then
    .error (.typeError ("simp must be type list, np.ndarray or np.generic"))
  else .ok ()

/-- The input type check `variance_scaling` actually performs
(src/cmethods/scaling.py line 104): `check_np_types(obs=obs, simh=simp,
simp=simp)` — `simp` is passed in the `simh` slot, so `simh` itself is never
inspected. -/
def variance_scaling_type_check (obs simh simp : PyVal) : Except CMError Unit :=
  check_np_types obs simp simp

/-- The `n_quantiles` validation shared by `quantile_mapping`
(src/cmethods/distribution.py lines 49-50), `detrended_quantile_mapping`
(lines 109-110) and `quantile_delta_mapping` (lines 218-219):
`if not isinstance(n_quantiles, int): raise TypeError(...)`. -/
def n_quantiles_check (n_quantiles : PyVal) : Except CMError Unit :=
  if ¬ isPyInt n_quantiles then
    .error (.typeError ("n_quantiles must be type int"))
  else .ok ()

/-- The quantile bins shared by `quantile_mapping` and by additive
`quantile_delta_mapping` with default kwargs: `n` bins of width
`|global_max - global_min| / n` from `global_min` to just past `global_max`. -/
def qm_xbins (obs simh : List ℚ) (n : ℕ) : List ℚ :=
  let global_max := max (nanmax obs) (nanmax simh)
  let global_min := min (nanmin obs) (nanmin simh)
  let wide := |global_max - global_min| / n
  np_arange global_min (global_max + wide) wide

/-- Modelled from the spec (§4.2/claim C2): the multiplicative quantile
mapping the specification describes — the quantile mass of each `simp` value
is read off a mean-rescaled proxy of `simp` that preserves the ratio of the
mean of `simp` to the mean of `simh` before the `cdf(simh)` lookup, the
inversion through `cdf(obs)` being rescaled back by the same ratio (the
rescaled-proxy behaviour of the detrended Eq. 2, which §9 of the spec
resolves the ambiguity to).  Written from the spec words, for comparison
with `quantile_mapping` as implemented. -/
def quantile_mapping_mult_spec (obs simh simp : List ℚ) (n : ℕ) : List ℚ :=
  let xbins := qm_xbins obs simh n
  let cdf_obs := get_cdf obs xbins
  let cdf_simh := get_cdf simh xbins
  let proxy := simp.map (fun v => nanmean simh * v / nanmean simp)
  let epsilon := proxy.map (fun v => np_interp v xbins cdf_simh (some 0) none)
  (epsilon.map (fun e => np_interp e cdf_obs xbins none none)).map
    (fun v => v * (nanmean simp / nanmean simh))

/-- ε(i): the quantile mass of `simp(i)` interpolated in `cdf(simp)` over the
shared bins (spec §4.3 step 1). -/
def qdm_add_epsilon (obs simh simp : List ℚ) (n : ℕ) : List ℚ :=
  simp.map (fun v =>
    np_interp v (qm_xbins obs simh n) (get_cdf simp (qm_xbins obs simh n)) none none)

/-- QDM1(i): ε(i) inverted through `cdf(obs)` (spec §4.3 step 2). -/
def QDM1_additive (obs simh simp : List ℚ) (n : ℕ) : List ℚ :=
  (qdm_add_epsilon obs simh simp n).map (fun e =>
    np_interp e (get_cdf obs (qm_xbins obs simh n)) (qm_xbins obs simh n) none none)

/-- Δ(i) = simp(i) - invert(cdf(simh), ε(i)) (spec §4.3 step 3, additive). -/
def delta_additive (obs simh simp : List ℚ) (n : ℕ) : List ℚ :=
  List.zipWith (fun v e =>
    v - np_interp e (get_cdf simh (qm_xbins obs simh n)) (qm_xbins obs simh n) none none)
    simp (qdm_add_epsilon obs simh simp n)

/-- The clamp `get_adjusted_scaling_factor` keeps any input inside
`[-max_scaling_factor, max_scaling_factor]` when the bound is nonnegative. -/
theorem get_adjusted_scaling_factor_bounds (factor msf : ℚ) (h : 0 ≤ msf) :
    -msf ≤ get_adjusted_scaling_factor factor msf ∧
      get_adjusted_scaling_factor factor msf ≤ msf := by
  unfold get_adjusted_scaling_factor
  rw [abs_of_nonneg h]
  split_ifs with h1 h2
  · exact ⟨by linarith, le_refl msf⟩
  · exact ⟨le_refl (-msf), by linarith⟩
  · push_neg at h1 h2
    constructor
    · rcases lt_or_le factor 0 with hf | hf
      · exact h2 hf
      · linarith
    · rcases lt_or_le 0 factor with hf | hf
      · exact h1 hf
      · linarith

/-- Claim C1 (counterexample): at numerator 1/2, denominator 0 and
max_scaling_factor 10 the guarded division followed by the clamp yields
(1/2) * 10 = 5, not sign(1/2) * 10 = 10, refuting the claimed
sign(numerator) * max_scaling_factor value for the x/0 case. -/
theorem c1_clamp_counterexample :
    get_adjusted_scaling_factor (ensure_devidable ((1:ℚ)/2) 0 10) 10 = 5 ∧
      ((if ((1:ℚ)/2) > 0 then (1:ℚ) else -1) * 10 = 10) ∧ (5:ℚ) ≠ 10 := by
  refine ⟨?_, ?_, by norm_num⟩
  · norm_num [ensure_devidable, get_adjusted_scaling_factor]
  · norm_num

/-- Claim C1 (amended): for a nonnegative max_scaling_factor, the guarded
division composed with the clamp always lands in
`[-max_scaling_factor, max_scaling_factor]`; it is 0 when numerator and
denominator are both 0; and when only the denominator is 0 it equals
`numerator * max_scaling_factor` clamped into that interval (not
`sign(numerator) * max_scaling_factor`). -/
theorem c1_clamp_amended (numerator denominator msf : ℚ) (h : 0 ≤ msf) :
    (-msf ≤ get_adjusted_scaling_factor (ensure_devidable numerator denominator msf) msf ∧
      get_adjusted_scaling_factor (ensure_devidable numerator denominator msf) msf ≤ msf) ∧
    (numerator = 0 → denominator = 0 →
      get_adjusted_scaling_factor (ensure_devidable numerator denominator msf) msf = 0) ∧
    (denominator = 0 → numerator ≠ 0 →
      get_adjusted_scaling_factor (ensure_devidable numerator denominator msf) msf =
        get_adjusted_scaling_factor (numerator * msf) msf) := by
  refine ⟨get_adjusted_scaling_factor_bounds _ _ h, ?_, ?_⟩
  · intro hn hd
    simp [ensure_devidable, get_adjusted_scaling_factor, hn, hd]
  · intro hd hn
    simp [ensure_devidable, hd, hn]

/-- Witness for `c1_clamp_amended` at (3, 0, 10). -/
theorem c1_clamp_witness :
    (0:ℚ) ≤ 10 ∧
    (((-10:ℚ) ≤ get_adjusted_scaling_factor (ensure_devidable 3 0 10) 10 ∧
      get_adjusted_scaling_factor (ensure_devidable 3 0 10) 10 ≤ 10) ∧
    ((3:ℚ) = 0 → (0:ℚ) = 0 →
      get_adjusted_scaling_factor (ensure_devidable 3 0 10) 10 = 0) ∧
    ((0:ℚ) = 0 → (3:ℚ) ≠ 0 →
      get_adjusted_scaling_factor (ensure_devidable 3 0 10) 10 =
        get_adjusted_scaling_factor (3 * 10) 10)) :=
  ⟨by norm_num, c1_clamp_amended 3 0 10 (by norm_num)⟩

/-- Claim C5 (counterexample): `n_quantiles = -1` is a non-positive integer,
yet the shared validation accepts it — non-positive integers are not rejected
before computation. -/
theorem c5_nq_counterexample :
    n_quantiles_check (.pyInt (-1)) = .ok () ∧ ¬ (0 < (-1 : ℤ)) :=
  ⟨rfl, by decide⟩

/-- Claim C5 (amended): the `n_quantiles` validation shared by the
distribution-based correctors accepts exactly the values of Python type
`int` — positivity is never checked, so non-positive integers reach the
computation. -/
theorem c5_nq_amended (v : PyVal) :
    n_quantiles_check v = .ok () ↔ ∃ z : ℤ, v = .pyInt z := by
  cases v <;> simp [n_quantiles_check, isPyInt]

/-- Claim C7: the result of `quantile_delta_mapping` does not depend on the
`max_scaling_factor` kwarg — the multiplicative delta guard reads the key
`max_scaling_scaling` (src/cmethods/distribution.py line 267), so two calls
differing only in `max_scaling_factor` are equal. -/
theorem c7_qdm_msf_independent (obs simh simp : List ℚ) (n : ℕ) (kind : String)
    (kw : Kwargs) (v₁ v₂ : Option ℚ) (hk : kind ∈ MULTIPLICATIVE) :
    quantile_delta_mapping obs simh simp n kind { kw with max_scaling_factor := v₁ } =
      quantile_delta_mapping obs simh simp n kind { kw with max_scaling_factor := v₂ } :=
  rfl

/-- Witness for `c7_qdm_msf_independent` with bounds 2 and 99. -/
theorem c7_qdm_msf_independent_witness :
    ("*") ∈ MULTIPLICATIVE ∧
    quantile_delta_mapping [5] [5] [3] 1 ("*")
        { ({} : Kwargs) with max_scaling_factor := some 2 } =
      quantile_delta_mapping [5] [5] [3] 1 ("*")
        { ({} : Kwargs) with max_scaling_factor := some 99 } :=
  ⟨by decide, c7_qdm_msf_independent [5] [5] [3] 1 ("*") {} (some 2) (some 99) (by decide)⟩

/-- Claim C8: the generic `adjust` entry point rejects
`detrended_quantile_mapping` with a `ValueError` for every input, before any
corrector can be dispatched. -/
theorem c8_adjust_rejects_dqm (std : List ℚ → ℚ) (obs simh simp : List ℚ)
    (lobs lsimh lsimp : List ℕ) (kw : Kwargs) :
    adjust std ("detrended_quantile_mapping") obs simh simp lobs lsimh lsimp kw =
      .error (.valueError
        ("This function is not available for detrended quantile mapping."
          ++ " Please use cmethods.CMethods.detrended_quantile_mapping")) :=
  rfl

/-- Claim C10: the type check performed by `variance_scaling` passes `simp`
in the `simh` slot, so whenever `obs` and `simp` are valid numeric sequence
types the check succeeds no matter what `simh` is — an invalid `simh` type is
not rejected at the interface. -/
theorem c10_vs_typecheck (obs simh simp : PyVal)
    (hobs : isNPData obs = true) (hsimp : isNPData simp = true) :
    variance_scaling_type_check obs simh simp = .ok () := by
  unfold variance_scaling_type_check check_np_types
  simp [hobs, hsimp]

/-- Witness for `c10_vs_typecheck`: a string-typed `simh` sails through. -/
theorem c10_vs_typecheck_witness :
    isNPData .pyList = true ∧ isNPData .pyNdarray = true ∧
    variance_scaling_type_check .pyList (.pyStr ("not a series")) .pyNdarray = .ok () :=
  ⟨rfl, rfl, c10_vs_typecheck .pyList (.pyStr ("not a series")) .pyNdarray rfl rfl⟩

/-- `Int.toNat` on the small literals produced by the bin-count ceilings. -/
theorem int_toNat_two : Int.toNat 2 = 2 := rfl

/-- `Int.toNat` on the literal 3. -/
theorem int_toNat_three : Int.toNat 3 = 3 := rfl

/-- `List.range` on the literal 2. -/
theorem range_two : List.range 2 = [0, 1] := by decide

/-- `List.range` on the literal 3. -/
theorem range_three : List.range 3 = [0, 1, 2] := by decide

/-- Claim C2 (counterexample): at obs = simh = [1, 3], simp = [2, 4],
n_quantiles = 2 the implemented multiplicative quantile mapping returns
[2, 3] while the mean-rescaled-proxy computation the claim describes yields
[2, 4] — the code looks up `simp` itself in cdf(simh), not a proxy. -/
theorem c2_qm_mult_counterexample :
    quantile_mapping [1, 3] [1, 3] [2, 4] 2 ("*") {} = .ok [2, 3] ∧
    quantile_mapping_mult_spec [1, 3] [1, 3] [2, 4] 2 = [2, 4] ∧
    ([(2:ℚ), 3]) ≠ ([(2:ℚ), 4]) := by
  refine ⟨?_, ?_, by decide⟩
  · norm_num [quantile_mapping, nanmax, nanmin, np_arange, int_toNat_three, range_three,
      get_cdf, get_pdf, histogram, List.scanl, List.filter, get_inverse_of_cdf,
      np_interp, interpCore, ADDITIVE, MULTIPLICATIVE, List.getLastD, Option.getD]
  · norm_num [quantile_mapping_mult_spec, qm_xbins, nanmax, nanmin, nanmean, np_arange,
      int_toNat_three, range_three, get_cdf, get_pdf, histogram, List.scanl, List.filter,
      np_interp, interpCore, List.getLastD, Option.getD]

/-- Claim C2 (amended): for every multiplicative kind and non-degenerate
range, `quantile_mapping` reads the quantile mass of each `simp` value by looking
up `simp` itself in cdf(simh) — with left fill `val_min` (default 0) and
right fill `val_max` (default: the last cdf value) — and then inverts through
cdf(obs); no mean-rescaled proxy is involved. -/
theorem c2_qm_mult_amended (obs simh simp : List ℚ) (n : ℕ) (kind : String)
    (kw : Kwargs) (hk : kind ∈ MULTIPLICATIVE)
    (hdeg : max (nanmax obs) (nanmax simh) ≠ min (nanmin obs) (nanmin simh)) :
    quantile_mapping obs simh simp n kind kw =
      .ok (get_inverse_of_cdf (get_cdf obs (qm_xbins obs simh n))
        (simp.map (fun v => np_interp v (qm_xbins obs simh n)
          (get_cdf simh (qm_xbins obs simh n)) (some (kw.val_min.getD 0)) kw.val_max))
        (qm_xbins obs simh n)) := by
  have hA : ∀ k ∈ MULTIPLICATIVE, k ∉ ADDITIVE := by decide
  have hk' : kind ∉ ADDITIVE := hA kind hk
  simp only [quantile_mapping, qm_xbins]
  rw [if_neg hdeg, if_neg hk', if_pos hk]

/-- Witness for `c2_qm_mult_amended` at obs = simh = [1, 3], simp = [2, 4],
n_quantiles = 2, kind "*". -/
theorem c2_qm_mult_witness :
    ("*") ∈ MULTIPLICATIVE ∧
    (max (nanmax [1, 3]) (nanmax [1, 3]) ≠ min (nanmin [1, 3]) (nanmin [1, 3])) ∧
    quantile_mapping [1, 3] [1, 3] [2, 4] 2 ("*") {} =
      .ok (get_inverse_of_cdf (get_cdf [1, 3] (qm_xbins [1, 3] [1, 3] 2))
        (([(2:ℚ), 4]).map (fun v => np_interp v (qm_xbins [1, 3] [1, 3] 2)
          (get_cdf [1, 3] (qm_xbins [1, 3] [1, 3] 2))
          (some (({} : Kwargs).val_min.getD 0)) ({} : Kwargs).val_max))
        (qm_xbins [1, 3] [1, 3] 2)) :=
  ⟨by decide, by decide,
    c2_qm_mult_amended [1, 3] [1, 3] [2, 4] 2 ("*") {} (by decide) (by decide)⟩

/-- Folding `max` over a constant-`c` list starting from `c` stays at `c`. -/
theorem foldl_max_const (c : ℚ) : ∀ (t : List ℚ), (∀ v ∈ t, v = c) → t.foldl max c = c
  | [], _ => rfl
  | b :: t, h => by
    have hb : b = c := h b (List.mem_cons_self b t)
    have ht := foldl_max_const c t (fun v hv => h v (List.mem_cons_of_mem b hv))
    simp [hb, max_self, ht]

/-- Folding `min` over a constant-`c` list starting from `c` stays at `c`. -/
theorem foldl_min_const (c : ℚ) : ∀ (t : List ℚ), (∀ v ∈ t, v = c) → t.foldl min c = c
  | [], _ => rfl
  | b :: t, h => by
    have hb : b = c := h b (List.mem_cons_self b t)
    have ht := foldl_min_const c t (fun v hv => h v (List.mem_cons_of_mem b hv))
    simp [hb, min_self, ht]

/-- The maximum of a nonempty constant array is the constant. -/
theorem nanmax_const {c : ℚ} : ∀ {l : List ℚ}, l ≠ [] → (∀ v ∈ l, v = c) → nanmax l = c
  | [], h, _ => absurd rfl h
  | a :: t, _, h => by
    have ha : a = c := h a (List.mem_cons_self a t)
    have := foldl_max_const c t (fun v hv => h v (List.mem_cons_of_mem a hv))
    simp [nanmax, ha, this]

/-- The minimum of a nonempty constant array is the constant. -/
theorem nanmin_const {c : ℚ} : ∀ {l : List ℚ}, l ≠ [] → (∀ v ∈ l, v = c) → nanmin l = c
  | [], h, _ => absurd rfl h
  | a :: t, _, h => by
    have ha : a = c := h a (List.mem_cons_self a t)
    have := foldl_min_const c t (fun v hv => h v (List.mem_cons_of_mem a hv))
    simp [nanmin, ha, this]

/-- Claim C3 (counterexample): with obs = simh = [5] (constant arrays equal
to the same value) and simp = [-1], multiplicative `quantile_delta_mapping`
does not return simp — the multiplicative branch defaults `global_min` to 0,
so the degenerate-range guard does not fire, and the computation yields [0]
instead of [-1]. -/
theorem c3_degenerate_counterexample :
    (∀ v ∈ [(5:ℚ)], v = 5) ∧
    quantile_delta_mapping [(5:ℚ)] [5] [-1] 1 ("*") {} = .ok [0] ∧
    ([(0:ℚ)]) ≠ [-1] := by
  refine ⟨by decide, ?_, by decide⟩
  norm_num [quantile_delta_mapping, nanmax, nanmin, np_arange, int_toNat_two, range_two,
    get_cdf, get_pdf, histogram, List.scanl, List.filter, get_inverse_of_cdf,
    np_interp, interpCore, ensure_devidable, MAX_SCALING_FACTOR,
    ADDITIVE, MULTIPLICATIVE, List.getLastD, Option.getD, List.zipWith]
  decide

/-- Claim C3 (amended): when obs and simh are nonempty constant arrays equal
to the same value `c`, `quantile_mapping` returns simp unchanged for every
kind (the guard fires before the kind dispatch), and so does additive
`quantile_delta_mapping`; the multiplicative `quantile_delta_mapping` branch
returns simp unchanged only when `c` equals its default `global_min` of 0. -/
theorem c3_degenerate_fallback (c : ℚ) (obs simh simp : List ℚ) (n : ℕ) (kind : String)
    (hobs : obs ≠ []) (hsimh : simh ≠ [])
    (hco : ∀ v ∈ obs, v = c) (hch : ∀ v ∈ simh, v = c) :
    quantile_mapping obs simh simp n kind {} = .ok simp ∧
    (kind ∈ ADDITIVE → quantile_delta_mapping obs simh simp n kind {} = .ok simp) ∧
    (kind ∈ MULTIPLICATIVE → c = 0 →
      quantile_delta_mapping obs simh simp n kind {} = .ok simp) := by
  have hmaxo := nanmax_const hobs hco
  have hmaxh := nanmax_const hsimh hch
  have hmino := nanmin_const hobs hco
  have hminh := nanmin_const hsimh hch
  have hgmax : max (nanmax obs) (nanmax simh) = c := by rw [hmaxo, hmaxh, max_self]
  have hgmin : min (nanmin obs) (nanmin simh) = c := by rw [hmino, hminh, min_self]
  refine ⟨?_, ?_, ?_⟩
  · simp only [quantile_mapping]
    rw [hgmax, hgmin, if_pos rfl]
  · intro hk
    have hA : ∀ k ∈ ADDITIVE, k ∈ ADDITIVE := fun _ h => h
    simp only [quantile_delta_mapping]
    rw [if_pos hk]
    simp only [Option.getD_none]
    rw [hgmax, hgmin, if_pos rfl]
  · intro hk hc
    have hk' : kind ∉ ADDITIVE := (by decide : ∀ k ∈ MULTIPLICATIVE, k ∉ ADDITIVE) kind hk
    simp only [quantile_delta_mapping]
    rw [if_neg hk', if_pos hk]
    simp only [Option.getD_none]
    rw [hgmax, hc, if_pos rfl]

/-- Witness for `c3_degenerate_fallback` at c = 5, obs = simh = [5, 5],
simp = [1, 2], kind "+". -/
theorem c3_degenerate_fallback_witness :
    ([(5:ℚ), 5] ≠ []) ∧ (∀ v ∈ [(5:ℚ), 5], v = 5) ∧
    (quantile_mapping [(5:ℚ), 5] [5, 5] [1, 2] 3 ("+") {} = .ok [1, 2] ∧
    (("+") ∈ ADDITIVE →
      quantile_delta_mapping [(5:ℚ), 5] [5, 5] [1, 2] 3 ("+") {} = .ok [1, 2]) ∧
    (("+") ∈ MULTIPLICATIVE → (5:ℚ) = 0 →
      quantile_delta_mapping [(5:ℚ), 5] [5, 5] [1, 2] 3 ("+") {} = .ok [1, 2])) :=
  ⟨by decide, by decide,
    c3_degenerate_fallback 5 [5, 5] [5, 5] [1, 2] 3 ("+")
      (by decide) (by decide) (by decide) (by decide)⟩

/-- Claim C4: for every additive kind, positive bin count and non-degenerate
range, `quantile_delta_mapping` equals `QDM1 + Δ` elementwise, with ε, QDM1
and Δ reconstructed independently from the engine primitives per spec §4.3. -/
theorem c4_qdm_add_decomposition (obs simh simp : List ℚ) (n : ℕ) (kind : String)
    (hk : kind ∈ ADDITIVE) (hn : 0 < n)
    (hdeg : max (nanmax obs) (nanmax simh) ≠ min (nanmin obs) (nanmin simh)) :
    quantile_delta_mapping obs simh simp n kind {} =
      .ok (List.zipWith (fun a b => a + b) (QDM1_additive obs simh simp n)
        (delta_additive obs simh simp n)) := by
  simp only [quantile_delta_mapping, QDM1_additive, delta_additive, qdm_add_epsilon,
    qm_xbins, get_inverse_of_cdf, Option.getD_none]
  rw [if_pos hk, if_neg hdeg]
  rw [List.zipWith_map_right]

/-- A successful `linear_scaling` result has the length of `simp`. -/
theorem linear_scaling_length {obs simh simp : List ℚ} {kind : String} {kw : Kwargs}
    {r : List ℚ} (h : linear_scaling obs simh simp kind kw = .ok r) :
    r.length = simp.length := by
  simp only [linear_scaling] at h
  split_ifs at h <;> simp at h <;> subst h <;> simp [linear_scaling_add]

/-- A successful `variance_scaling` result has the length of `simp`,
whatever the standard-deviation function is. -/
theorem variance_scaling_length {std : List ℚ → ℚ} {obs simh simp : List ℚ}
    {kind : String} {kw : Kwargs} {r : List ℚ}
    (h : variance_scaling std obs simh simp kind kw = .ok r) :
    r.length = simp.length := by
  simp only [variance_scaling] at h
  split_ifs at h <;> simp at h <;> subst h <;> simp [linear_scaling_add]

/-- A successful `delta_method` result has the length of `obs` (the source
builds it from `obs`, not `simp`). -/
theorem delta_method_length {obs simh simp : List ℚ} {kind : String} {kw : Kwargs}
    {r : List ℚ} (h : delta_method obs simh simp kind kw = .ok r) :
    r.length = obs.length := by
  simp only [delta_method] at h
  split_ifs at h <;> simp at h <;> subst h <;> simp

/-- A successful `quantile_mapping` result has the length of `simp`. -/
theorem quantile_mapping_length {obs simh simp : List ℚ} {n : ℕ} {kind : String}
    {kw : Kwargs} {r : List ℚ} (h : quantile_mapping obs simh simp n kind kw = .ok r) :
    r.length = simp.length := by
  simp only [quantile_mapping] at h
  split_ifs at h <;> simp at h <;> subst h <;> simp [get_inverse_of_cdf]

/-- A successful `quantile_delta_mapping` result has the length of `simp`. -/
theorem quantile_delta_mapping_length {obs simh simp : List ℚ} {n : ℕ} {kind : String}
    {kw : Kwargs} {r : List ℚ}
    (h : quantile_delta_mapping obs simh simp n kind kw = .ok r) :
    r.length = simp.length := by
  simp only [quantile_delta_mapping] at h
  split_ifs at h <;> simp at h <;> subst h <;>
    simp [get_inverse_of_cdf, List.length_zipWith]

/-- Claim C6 (counterexample): dispatched through `adjust`, `delta_method`
with obs = [1, 2] and simp = [5, 6, 7] returns a 2-element series — the
result has the time-length of `obs`, not of `simp`, so the claimed
simp-shaped return fails when the two lengths differ (the real pipeline then
aborts inside `xr.apply_ufunc` with a core-dimension size mismatch; either
way no simp-shaped value is returned). -/
theorem c6_adjust_length_counterexample :
    adjust (fun _ => 0) ("delta_method") [1, 2] [3, 4] [5, 6, 7] [] [] [] {} =
      .ok [7/2, 9/2] ∧ ([(7:ℚ)/2, 9/2]).length ≠ ([(5:ℚ), 6, 7]).length := by
  refine ⟨?_, by decide⟩
  norm_num [adjust, apply_ufunc, dispatch_method, METHODS_FUNC, SCALING_METHODS,
    delta_method, nanmean, ADDITIVE, MULTIPLICATIVE]
  simp

/-- Claim C6 (amended): for every method, whenever the generic ungrouped
`adjust` entry point returns a result and `obs` has the same time-length as
`simp`, the result has the time-length of `simp`.  (The length hypothesis is
forced by `delta_method`, which builds its output from `obs`; all the other
dispatched correctors return simp-length results unconditionally.) -/
theorem c6_adjust_length (std : List ℚ → ℚ) (method : String) (obs simh simp : List ℚ)
    (lobs lsimh lsimp : List ℕ) (kw : Kwargs) (r : List ℚ)
    (hgroup : kw.group = none) (hlen : obs.length = simp.length)
    (h : adjust std method obs simh simp lobs lsimh lsimp kw = .ok r) :
    r.length = simp.length := by
  simp only [adjust, hgroup] at h
  split_ifs at h with h1
  simp only [apply_ufunc] at h
  split_ifs at h with h4
  simp only [dispatch_method] at h
  split_ifs at h with m1 m2 m3 m4 m5
  · exact linear_scaling_length h
  · exact variance_scaling_length h
  · exact (delta_method_length h).trans hlen
  · cases hq : kw.n_quantiles with
    | none => rw [hq] at h; simp at h
    | some n => rw [hq] at h; exact quantile_mapping_length h
  · cases hq : kw.n_quantiles with
    | none => rw [hq] at h; simp at h
    | some n => rw [hq] at h; exact quantile_delta_mapping_length h

/-- Witness for `c6_adjust_length` via `linear_scaling` on equal-length
inputs. -/
theorem c6_adjust_length_witness :
    ({} : Kwargs).group = none ∧ ([(1:ℚ), 2]).length = ([(3:ℚ), 4]).length ∧
    adjust (fun _ => 0) ("linear_scaling") [1, 2] [1, 2] [3, 4] [] [] [] {} = .ok [3, 4] ∧
    ([(3:ℚ), 4]).length = ([(3:ℚ), 4]).length := by
  have hres : adjust (fun _ => 0) ("linear_scaling") [1, 2] [1, 2] [3, 4] [] [] [] {} =
      .ok [3, 4] := by
    norm_num [adjust, apply_ufunc, dispatch_method, METHODS_FUNC, SCALING_METHODS,
      linear_scaling, linear_scaling_add, nanmean, ADDITIVE]
    simp
  exact ⟨rfl, rfl, hres,
    c6_adjust_length (fun _ => 0) ("linear_scaling") [1, 2] [1, 2] [3, 4]
      [] [] [] {} [3, 4] rfl rfl hres⟩

/-- `histogram` produces one count per bin, i.e. one fewer than the number
of edges. -/
theorem histogram_length (x : List ℚ) : ∀ (bins : List ℚ),
    (histogram x bins).length = bins.length - 1
  | [] => rfl
  | [_] => rfl
  | [_, _] => rfl
  | _ :: b :: c :: rest => by
    have ih := histogram_length x (b :: c :: rest)
    show (_ :: histogram x (b :: c :: rest)).length = _
    simp only [List.length_cons] at ih ⊢
    omega

/-- The running prefix-sum list starts at its seed. -/
theorem scanl_head (l : List ℕ) (b : ℚ) :
    (List.scanl (fun (acc : ℚ) (c : ℕ) => acc + (c : ℚ)) b l).head? = some b := by
  cases l <;> rfl

/-- A prefix-sum of natural counts is monotonically non-decreasing. -/
theorem scanl_chain : ∀ (l : List ℕ) (b : ℚ),
    List.Chain' (· ≤ ·) (List.scanl (fun (acc : ℚ) (c : ℕ) => acc + (c : ℚ)) b l)
  | [], _ => by simp
  | a :: t, b => by
    rw [List.scanl_cons, List.singleton_append, List.chain'_cons']
    refine ⟨fun y hy => ?_, scanl_chain t (b + a)⟩
    rw [scanl_head, Option.mem_some_iff] at hy
    subst hy
    exact le_add_of_nonneg_right (by positivity)

/-- The last entry of a prefix-sum list is the seed plus the total count. -/
theorem scanl_getLastD : ∀ (l : List ℕ) (b d : ℚ),
    (List.scanl (fun (acc : ℚ) (c : ℕ) => acc + (c : ℚ)) b l).getLastD d = b + (l.sum : ℚ)
  | [], b, d => by simp
  | a :: t, b, d => by
    rw [List.scanl_cons, List.singleton_append, List.getLastD_cons,
      scanl_getLastD t (b + a) b, List.sum_cons]
    push_cast
    ring

/-- In a `(· ≤ ·)`-chained list the head is at most the last element. -/
theorem chain'_le_getLastD : ∀ {l : List ℚ} {a : ℚ} (d : ℚ),
    List.Chain' (· ≤ ·) (a :: l) → a ≤ (a :: l).getLastD d
  | [], a, _, _ => le_refl a
  | b :: t, a, d, h => by
    have hab : a ≤ b := (List.chain'_cons.mp h).1
    have hb := chain'_le_getLastD (l := t) (a := b) a h.tail
    rw [List.getLastD_cons]
    exact le_trans hab hb

/-- Additivity of filtered lengths under a pointwise indicator identity. -/
theorem filter_length_split (x : List ℚ) (p q r : ℚ → Bool)
    (h : ∀ v, (p v).toNat + (q v).toNat = (r v).toNat) :
    (x.filter p).length + (x.filter q).length = (x.filter r).length := by
  induction x with
  | nil => rfl
  | cons a t ih =>
    have ha := h a
    by_cases hp : p a <;> by_cases hq : q a <;> by_cases hr : r a <;>
      simp [List.filter_cons, hp, hq, hr] at ha ⊢ <;> omega

/-- The histogram counts over a sorted edge list with at least two edges sum
to the number of samples inside the closed interval spanned by the first and
last edge (numpy closes the last bin on the right). -/
theorem histogram_sum (x : List ℚ) : ∀ (bins : List ℚ),
    List.Chain' (· ≤ ·) bins → 2 ≤ bins.length →
    (histogram x bins).sum =
      (x.filter (fun v => decide (bins.headD 0 ≤ v ∧ v ≤ bins.getLastD 0))).length
  | [], _, hl => by simp at hl
  | [_], _, hl => by simp at hl
  | [a, b], _, _ => by simp [histogram, List.getLastD_cons]
  | a :: b :: c :: rest, hchain, _ => by
    have hab : a ≤ b := (List.chain'_cons.mp hchain).1
    have htail : List.Chain' (· ≤ ·) (b :: c :: rest) := hchain.tail
    have hbL : b ≤ (b :: c :: rest).getLastD 0 := chain'_le_getLastD 0 htail
    have ih := histogram_sum x (b :: c :: rest) htail (by simp)
    show ((x.filter (fun v => decide (a ≤ v ∧ v < b))).length ::
      histogram x (b :: c :: rest)).sum = _
    rw [List.sum_cons, ih]
    have hL : (a :: b :: c :: rest).getLastD 0 = (b :: c :: rest).getLastD 0 := by
      simp only [List.getLastD_cons]
    rw [show (a :: b :: c :: rest).headD 0 = a from rfl, hL]
    set L := (b :: c :: rest).getLastD 0 with hLdef
    refine filter_length_split x _ _ _ (fun v => ?_)
    by_cases h1 : a ≤ v <;> by_cases h2 : v < b <;> by_cases h3 : v ≤ L
    · have hnb : ¬ b ≤ v := not_le.mpr h2
      simp [h1, h2, h3, hnb]
    · exact absurd (le_trans (le_of_lt h2) hbL) h3
    · have hbv : b ≤ v := le_of_not_lt h2
      simp [h1, h2, h3, hbv]
    · have hbv : b ≤ v := le_of_not_lt h2
      simp [h1, h2, h3, hbv]
    · have hnb : ¬ b ≤ v := not_le.mpr h2
      simp [h1, h2, h3, hnb]
    · exact absurd (le_trans (le_of_lt h2) hbL) h3
    · exact absurd (le_trans hab (le_of_not_lt h2)) h1
    · exact absurd (le_trans hab (le_of_not_lt h2)) h1

/-- Claim C9 (counterexample): with x = [10] and xbins = [0, 10] the last
cdf entry is 1, yet no sample lies in the half-open interval [0, 10) —
the last numpy histogram bin is closed on the right, so the claimed half-open
characterisation of the final count fails. -/
theorem c9_cdf_counterexample :
    (get_cdf [(10:ℚ)] [0, 10]).getLastD 0 = 1 ∧
    (([(10:ℚ)].filter (fun v => decide ((0:ℚ) ≤ v ∧ v < 10))).length : ℚ) = 0 ∧
    (1:ℚ) ≠ 0 := by
  refine ⟨?_, ?_, by norm_num⟩
  · norm_num [get_cdf, get_pdf, histogram, List.scanl, List.filter]
  · norm_num [List.filter]

/-- Claim C9 (amended): for every sample list and every sorted bin-edge list
with at least two edges, `get_cdf` returns a list of the same length as the
edges, starting at 0, monotonically non-decreasing, whose last entry counts
the samples in the closed interval [xbins.head, xbins.last] (closed, not
half-open, on the right). -/
theorem c9_cdf_amended (x xbins : List ℚ)
    (hsorted : List.Chain' (· ≤ ·) xbins) (hlen : 2 ≤ xbins.length) :
    (get_cdf x xbins).length = xbins.length ∧
    (get_cdf x xbins).head? = some 0 ∧
    List.Chain' (· ≤ ·) (get_cdf x xbins) ∧
    (get_cdf x xbins).getLastD 0 =
      ((x.filter (fun v => decide (xbins.headD 0 ≤ v ∧ v ≤ xbins.getLastD 0))).length : ℚ) := by
  refine ⟨?_, scanl_head _ _, scanl_chain _ _, ?_⟩
  · unfold get_cdf get_pdf
    rw [List.length_scanl, histogram_length]
    omega
  · unfold get_cdf get_pdf
    rw [scanl_getLastD, histogram_sum x xbins hsorted hlen]
    simp

/-- Witness for `c9_cdf_amended` at the docstring example of `get_cdf`
(src/cmethods/utils.py), whose cdf is [0, 2, 7, 12]. -/
theorem c9_cdf_witness :
    List.Chain' (· ≤ ·) [(0:ℚ), 3, 6, 10] ∧ 2 ≤ ([(0:ℚ), 3, 6, 10]).length ∧
    ((get_cdf [1, 2, 3, 4, 5, 5, 5, 6, 7, 8, 9, 10] [(0:ℚ), 3, 6, 10]).length =
        ([(0:ℚ), 3, 6, 10]).length ∧
      (get_cdf [1, 2, 3, 4, 5, 5, 5, 6, 7, 8, 9, 10] [(0:ℚ), 3, 6, 10]).head? = some 0 ∧
      List.Chain' (· ≤ ·)
        (get_cdf [1, 2, 3, 4, 5, 5, 5, 6, 7, 8, 9, 10] [(0:ℚ), 3, 6, 10]) ∧
      (get_cdf [1, 2, 3, 4, 5, 5, 5, 6, 7, 8, 9, 10] [(0:ℚ), 3, 6, 10]).getLastD 0 =
        (([(1:ℚ), 2, 3, 4, 5, 5, 5, 6, 7, 8, 9, 10].filter
          (fun v => decide (([(0:ℚ), 3, 6, 10]).headD 0 ≤ v ∧
            v ≤ ([(0:ℚ), 3, 6, 10]).getLastD 0))).length : ℚ)) :=
  ⟨by norm_num [List.chain'_cons], by decide,
    c9_cdf_amended [1, 2, 3, 4, 5, 5, 5, 6, 7, 8, 9, 10] [0, 3, 6, 10]
      (by norm_num [List.chain'_cons]) (by decide)⟩

/-- Witness for `c4_qdm_add_decomposition` at obs = simh = [1, 3],
simp = [2], n_quantiles = 2, kind "+". -/
theorem c4_qdm_add_witness :
    ("+") ∈ ADDITIVE ∧ 0 < 2 ∧
    (max (nanmax [1, 3]) (nanmax [1, 3]) ≠ min (nanmin [1, 3]) (nanmin [1, 3])) ∧
    quantile_delta_mapping [1, 3] [1, 3] [2] 2 ("+") {} =
      .ok (List.zipWith (fun a b => a + b) (QDM1_additive [1, 3] [1, 3] [2] 2)
        (delta_additive [1, 3] [1, 3] [2] 2)) :=
  ⟨by decide, by decide, by decide,
    c4_qdm_add_decomposition [1, 3] [1, 3] [2] 2 ("+") (by decide) (by decide) (by decide)⟩

end CMethods
